import Mathlib

/-!
# Edit-scene bookkeeping of the editor state

A shallow embedding of the edit-scene part of
`Engine/Source/Editor/EditorState.cpp`: the list of open edit scenes
(`mEditScenes`), the index of the active one (`mEditSceneIndex`), and the
play-in-editor (PIE) switch that shelves the active scene, plays a clone of it
and restores it afterwards.

Modelling conventions.

* `EditorState.h` is not among the sources at hand; the fields below are the
  members the `.cpp` file reads and writes, under their own names.
* Pointers to nodes, scenes and asset stubs are `Option Nat`: `none` is
  `nullptr`, `some n` is the object with identity `n`.
* `int32_t` values are `Int`. The casts `int32_t(mEditScenes.size())` are
  taken to be exact, that is, the list is shorter than `2^31`.
* A `glm::mat4` is an abstract value (`Mat4`); the code only copies them.
* Every operation that can index `mEditScenes` outside its bounds returns
  `Option EditorState`; `none` stands for that undefined behaviour.
* `OCT_ASSERT` is declared outside the sources at hand. It is treated as a
  diagnostic that does not change the editor state.
* Calls into `PanelManager`, `ActionManager`, `Renderer`, the timer and audio
  managers and the game callbacks (`OctPostInitialize`, `OctPreShutdown`,
  `OctPostShutdown`) act on objects that are not part of `EditorState` and are
  left out. `Node::Destruct` frees a node and is left out as well.
-/

namespace Octave

/-- Abstract value of a `glm::mat4`. -/
structure Mat4 where
  code : Nat
deriving DecidableEq

/-- The matrix `glm::mat4(1)`. -/
def Mat4.identity : Mat4 := ⟨1⟩

/-- One open edit scene: the scene asset it edits (null for an unsaved scene),
the shelved root node and the shelved editor-camera transform. -/
structure EditScene where
  mSceneAsset : Option Nat
  mRootNode : Option Nat
  mCameraTransform : Mat4
deriving DecidableEq

/-- What the editor state uses from code that is declared elsewhere, taken as
parameters: `Scene::Instantiate`, `Node::Clone(true, false)`, the value of
`mRootNode` in a default-constructed `EditScene` (the struct is declared in
`EditorState.h`), and the effect on the editor camera of writing back the
transform of the world's active camera at the end of `EndPlayInEditor`. -/
structure Engine where
  instantiate : Nat → Option Nat
  clone : Nat → Option Nat
  defaultRootNode : Option Nat
  pieExitCamera : Mat4 → Mat4

/-- The fields of `EditorState` read or written by the edit-scene and
play-in-editor functions, together with the two pieces of engine state they
touch: the root node of the world and the transform of the editor camera. -/
structure EditorState where
  mEditScenes : List EditScene
  mEditSceneIndex : Int
  mPieEditSceneIdx : Int
  mPlayInEditor : Bool
  mEjected : Bool
  mPaused : Bool
  mUiEnabled : Bool
  mSelectedNodes : List Nat
  mSelectedAssetStub : Option Nat
  worldRoot : Option Nat
  editorCamera : Mat4
deriving DecidableEq

/-- An `EditScene*`: null, or the address `&mEditScenes[k]` of slot `k` of the
vector's storage. The slot lies inside the vector only when
`0 ≤ k < mEditScenes.size()`. -/
inductive EditScenePtr where
  | null
  | slot (k : Int)
deriving DecidableEq

/-- The element of `mEditScenes` at an `int32_t` position, if there is one. -/
def EditorState.sceneAt (s : EditorState) (k : Int) : Option EditScene :=
  if 0 ≤ k then s.mEditScenes[k.toNat]? else none

/-- Whether `k` is a position inside `mEditScenes`. -/
def EditorState.validIndex (s : EditorState) (k : Int) : Prop :=
  0 ≤ k ∧ k < (s.mEditScenes.length : Int)

instance (s : EditorState) (k : Int) : Decidable (s.validIndex k) := by
  unfold EditorState.validIndex; exact inferInstance

/-- Reading through an `EditScene*`: defined only for a pointer to a slot
inside the vector. -/
def EditorState.deref (s : EditorState) : EditScenePtr → Option EditScene
  | EditScenePtr.null => none
  | EditScenePtr.slot k => s.sceneAt k

/-- Embedding of `EditorState::ShelveEditScene` (lines 527-540): the world root
and the editor-camera transform are stored in the active entry, the world root
is cleared and no scene is active afterwards. The result is undefined when the
active index points past the list. -/
def ShelveEditScene (s : EditorState) : Option EditorState :=
  if 0 ≤ s.mEditSceneIndex then
    match s.mEditScenes[s.mEditSceneIndex.toNat]? with
    | none => none
    | some editScene =>
      some { s with
        mEditScenes := s.mEditScenes.set s.mEditSceneIndex.toNat
          { editScene with mRootNode := s.worldRoot, mCameraTransform := s.editorCamera }
        worldRoot := none
        mEditSceneIndex := -1 }
  else some s

/-- Embedding of `EditorState::GetEditScene` (lines 542-559). The returned pointer is
`&mEditScenes[mEditSceneIndex]`, as in the source. -/
def GetEditScene (s : EditorState) (idx : Int) : EditScenePtr :=
  let idx := if idx = -1 then s.mEditSceneIndex else idx
  if 0 ≤ idx ∧ idx < (s.mEditScenes.length : Int) then
    EditScenePtr.slot s.mEditSceneIndex
  else EditScenePtr.null

/-- Embedding of `EditorState::OpenEditScene(int32_t)` (lines 472-491). -/
def OpenEditScene_int32 (s : EditorState) (idx : Int) : Option EditorState :=
  if s.mPlayInEditor then some s
  else
    match ShelveEditScene s with
    | none => none
    | some s1 =>
      if 0 ≤ idx ∧ idx < (s1.mEditScenes.length : Int) then
        match s1.mEditScenes[idx.toNat]? with
        | none => none
        | some editScene =>
          some { s1 with
            mEditSceneIndex := idx
            worldRoot := editScene.mRootNode
            editorCamera := editScene.mCameraTransform }
      else some s1

/-- The search loop of `OpenEditScene(Scene*)` (lines 438-446), started at
position `i`: the position of the first entry whose asset is `scene`. -/
def findOpenScene (scene : Nat) : List EditScene → Nat → Option Nat
  | [], _ => none
  | e :: rest, i =>
    if e.mSceneAsset = some scene then some i else findOpenScene scene rest (i + 1)

/-- The entry pushed by `OpenEditScene(Scene*)` for a scene that is not open
yet (lines 452-460). -/
def newEditScene (env : Engine) (scene : Option Nat) : EditScene :=
  { mSceneAsset := scene
    mRootNode := match scene with
      | none => env.defaultRootNode
      | some sc => env.instantiate sc
    mCameraTransform := Mat4.identity }

/-- Embedding of `EditorState::OpenEditScene(Scene*)` (lines 430-470). The entry
is pushed before the call of `OpenEditScene(int32_t)`, as in the source. -/
def OpenEditScene_Scene (env : Engine) (s : EditorState) (scene : Option Nat) :
    Option EditorState :=
  let found : Option Nat :=
    match scene with
    | none => none
    | some sc => findOpenScene sc s.mEditScenes 0
  match found with
  | some i => OpenEditScene_int32 s (i : Int)
  | none =>
    let s1 := { s with mEditScenes := s.mEditScenes ++ [newEditScene env scene] }
    OpenEditScene_int32 s1 ((s1.mEditScenes.length : Int) - 1)

/-- Embedding of `EditorState::CloseEditScene` (lines 493-525). -/
def CloseEditScene (s : EditorState) (idx : Int) : Option EditorState :=
  if s.mPlayInEditor then some s
  else if 0 ≤ idx ∧ idx < (s.mEditScenes.length : Int) then
    match (if idx = s.mEditSceneIndex then ShelveEditScene s else some s) with
    | none => none
    | some s1 =>
      let s2 := { s1 with mEditScenes := s1.mEditScenes.eraseIdx idx.toNat }
      if s2.mEditSceneIndex = -1 ∧ s2.mEditScenes.length > 0 then
        let idx2 := if idx ≥ (s2.mEditScenes.length : Int)
          then (s2.mEditScenes.length : Int) - 1 else idx
        OpenEditScene_int32 s2 idx2
      else some s2
  else some s

/-- Embedding of `EditorState::BeginPlayInEditor` up to and including `OctPostInitialize()`
(lines 236-261): the state in which the played scene is looked up. -/
def beginPlaySetup (s : EditorState) : Option EditorState :=
  let s1 := { s with
    mSelectedNodes := []
    mSelectedAssetStub := none
    mPieEditSceneIdx := s.mEditSceneIndex }
  match ShelveEditScene s1 with
  | none => none
  | some s2 => some { s2 with worldRoot := none, mUiEnabled := false, mPlayInEditor := true }

/-- Embedding of `EditorState::BeginPlayInEditor` (lines 234-270). Reading
`editScene->mRootNode` through a pointer outside the list is undefined. -/
def BeginPlayInEditor (env : Engine) (s : EditorState) : Option EditorState :=
  if s.mPlayInEditor then some s
  else
    match beginPlaySetup s with
    | none => none
    | some s3 =>
      match GetEditScene s3 s3.mPieEditSceneIdx with
      | EditScenePtr.null => some s3
      | EditScenePtr.slot k =>
        match s3.deref (EditScenePtr.slot k) with
        | none => none
        | some editScene =>
          match editScene.mRootNode with
          | none => some s3
          | some root => some { s3 with worldRoot := env.clone root }

/-- Embedding of `EditorState::EndPlayInEditor` (lines 272-312). -/
def EndPlayInEditor (env : Engine) (s : EditorState) : Option EditorState :=
  if !s.mPlayInEditor then some s
  else
    let s1 := { s with
      worldRoot := none
      mSelectedNodes := []
      mSelectedAssetStub := none
      mUiEnabled := true
      mPlayInEditor := false
      mEjected := false
      mPaused := false }
    match OpenEditScene_int32 s1 s1.mPieEditSceneIdx with
    | none => none
    | some s2 => some { s2 with editorCamera := env.pieExitCamera s2.editorCamera }

/-- The index predicate of the editor state: no edit scene is active
(`mEditSceneIndex = -1`) or `mEditSceneIndex` is a position of `mEditScenes`. -/
def IndexInv (s : EditorState) : Prop :=
  s.mEditSceneIndex = -1 ∨ s.validIndex s.mEditSceneIndex

instance (s : EditorState) : Decidable (IndexInv s) := by
  unfold IndexInv; exact inferInstance

/-! ## Sample data -/

/-- A sample engine: instantiating scene `n` yields node `n + 100`, cloning
node `n` yields node `n + 1000`, a default-constructed entry has a null root,
and the camera write-back keeps the transform. -/
def sampleEngine : Engine :=
  { instantiate := fun n => some (n + 100)
    clone := fun n => some (n + 1000)
    defaultRootNode := none
    pieExitCamera := fun m => m }

/-- Edit scene of asset `n` with shelved root `n + 100`. -/
def sampleScene (n : Nat) : EditScene :=
  { mSceneAsset := some n, mRootNode := some (n + 100), mCameraTransform := ⟨n + 2⟩ }

/-- A sample editor state with the given scenes, active index and play flag;
the world root is the root of the active scene, if any. -/
def sampleState (scenes : List EditScene) (active : Int) (playing : Bool) : EditorState :=
  { mEditScenes := scenes
    mEditSceneIndex := active
    mPieEditSceneIdx := -1
    mPlayInEditor := playing
    mEjected := false
    mPaused := false
    mUiEnabled := !playing
    mSelectedNodes := []
    mSelectedAssetStub := none
    worldRoot := if 0 ≤ active then (scenes[active.toNat]?).bind (fun e => e.mRootNode) else none
    editorCamera := ⟨7⟩ }

/-- Scenes 1 and 2 are open, scene 1 is active, the editor is not playing. -/
def twoScenesFirstActive : EditorState :=
  sampleState [sampleScene 1, sampleScene 2] 0 false

/-- Scenes 1 and 2 are open, scene 2 is active, the editor is not playing. -/
def twoScenesSecondActive : EditorState :=
  sampleState [sampleScene 1, sampleScene 2] 1 false

/-- Scenes 1, 2 and 3 are open, scene 2 is active, the editor is not playing. -/
def threeScenesMiddleActive : EditorState :=
  sampleState [sampleScene 1, sampleScene 2, sampleScene 3] 1 false

/-- Scene 1 is open and active, the editor is not playing. -/
def oneSceneActive : EditorState :=
  sampleState [sampleScene 1] 0 false

/-- The editor is playing and no edit scene is open. -/
def playingNoScenes : EditorState :=
  sampleState [] (-1) true

/-- The editor is playing, scene 1 is open, and no edit scene is active. -/
def playingOneShelved : EditorState :=
  sampleState [sampleScene 1] (-1) true

/-- The editor is not playing and no edit scene is open. -/
def idleNoScenes : EditorState :=
  sampleState [] (-1) false

/-- The state reached from `idleNoScenes` by opening scene 1, opening scene 2
and closing position 0: one entry is left and `mEditSceneIndex` is still 1. -/
def staleIndexState : EditorState :=
  { mEditScenes := [⟨some 2, some 102, Mat4.identity⟩]
    mEditSceneIndex := 1
    mPieEditSceneIdx := -1
    mPlayInEditor := false
    mEjected := false
    mPaused := false
    mUiEnabled := true
    mSelectedNodes := []
    mSelectedAssetStub := none
    worldRoot := some 102
    editorCamera := Mat4.identity }

/-! ## Basic facts about shelving -/

theorem ShelveEditScene_of_neg (s : EditorState) (h : s.mEditSceneIndex < 0) :
    ShelveEditScene s = some s := by
  unfold ShelveEditScene
  rw [if_neg (by omega)]

theorem ShelveEditScene_of_valid (s : EditorState) (h : s.validIndex s.mEditSceneIndex) :
    ∃ e, s.mEditScenes[s.mEditSceneIndex.toNat]? = some e ∧
      ShelveEditScene s = some { s with
        mEditScenes := s.mEditScenes.set s.mEditSceneIndex.toNat
          { e with mRootNode := s.worldRoot, mCameraTransform := s.editorCamera }
        worldRoot := none
        mEditSceneIndex := -1 } := by
  obtain ⟨h0, h1⟩ := h
  have hlt : s.mEditSceneIndex.toNat < s.mEditScenes.length := by omega
  refine ⟨s.mEditScenes[s.mEditSceneIndex.toNat], List.getElem?_eq_getElem hlt, ?_⟩
  unfold ShelveEditScene
  rw [if_pos h0, List.getElem?_eq_getElem hlt]

/-- Shelving is defined whenever the active index does not point past the
list; afterwards the index is negative, the length is unchanged, the play flag
is unchanged and so are the scene assets of all entries. -/
theorem ShelveEditScene_defined (s : EditorState)
    (h : s.mEditSceneIndex < (s.mEditScenes.length : Int)) :
    ∃ sh, ShelveEditScene s = some sh ∧ sh.mEditSceneIndex < 0 ∧
      (0 ≤ s.mEditSceneIndex → sh.mEditSceneIndex = -1) ∧
      sh.mEditScenes.length = s.mEditScenes.length ∧
      sh.mPlayInEditor = s.mPlayInEditor ∧
      sh.mEditScenes.map (fun e => e.mSceneAsset) = s.mEditScenes.map (fun e => e.mSceneAsset) := by
  by_cases h0 : 0 ≤ s.mEditSceneIndex
  · obtain ⟨e, he, hs⟩ := ShelveEditScene_of_valid s ⟨h0, h⟩
    refine ⟨_, hs, by simp, by simp, by simp, rfl, ?_⟩
    simp only
    apply List.ext_getElem?
    intro n
    simp only [List.getElem?_map, List.getElem?_set]
    by_cases hn : s.mEditSceneIndex.toNat = n
    · subst hn
      have hlt : s.mEditSceneIndex.toNat < s.mEditScenes.length := by omega
      simp [hlt, he]
    · simp [hn]
  · refine ⟨s, ShelveEditScene_of_neg s (by omega), by omega, by omega, rfl, rfl, rfl⟩

theorem eraseIdx_set_self {α : Type} (l : List α) (i : Nat) (x : α) :
    (l.set i x).eraseIdx i = l.eraseIdx i := by
  induction l generalizing i with
  | nil => simp
  | cons a rest ih =>
    cases i with
    | zero => simp
    | succ n => simp [ih]

/-- Opening a valid position while not playing and with no active scene makes
that position the active one and installs its shelved root and camera. -/
theorem OpenEditScene_int32_of_idle (s : EditorState) (idx : Int)
    (hplay : s.mPlayInEditor = false) (hneg : s.mEditSceneIndex < 0)
    (hv : s.validIndex idx) :
    ∃ e, s.mEditScenes[idx.toNat]? = some e ∧
      OpenEditScene_int32 s idx = some { s with
        mEditSceneIndex := idx
        worldRoot := e.mRootNode
        editorCamera := e.mCameraTransform } := by
  obtain ⟨h0, h1⟩ := hv
  have hlt : idx.toNat < s.mEditScenes.length := by omega
  refine ⟨s.mEditScenes[idx.toNat], List.getElem?_eq_getElem hlt, ?_⟩
  unfold OpenEditScene_int32
  simp [hplay, ShelveEditScene_of_neg s hneg, h0, h1, List.getElem?_eq_getElem hlt]

/-- Opening a valid position while not playing: the active scene is shelved
first and the requested entry of the shelved list becomes the active one. -/
theorem OpenEditScene_int32_of_valid (s : EditorState) (idx : Int)
    (hplay : s.mPlayInEditor = false)
    (hidx : s.mEditSceneIndex < (s.mEditScenes.length : Int))
    (hv : s.validIndex idx) :
    ∃ sh e, ShelveEditScene s = some sh ∧ sh.mEditScenes[idx.toNat]? = some e ∧
      OpenEditScene_int32 s idx = some { sh with
        mEditSceneIndex := idx
        worldRoot := e.mRootNode
        editorCamera := e.mCameraTransform } := by
  obtain ⟨sh, hsh, _, _, hlen, _, _⟩ := ShelveEditScene_defined s hidx
  obtain ⟨h0, h1⟩ := hv
  have hlt : idx.toNat < sh.mEditScenes.length := by omega
  refine ⟨sh, sh.mEditScenes[idx.toNat], hsh, List.getElem?_eq_getElem hlt, ?_⟩
  unfold OpenEditScene_int32
  rw [if_neg (by simp [hplay]), hsh]
  simp only
  rw [if_pos ⟨h0, by omega⟩, List.getElem?_eq_getElem hlt]

/-- Shelving does not look at entries pushed behind the active one. -/
theorem ShelveEditScene_append (s sh : EditorState) (x : EditScene)
    (h : ShelveEditScene s = some sh) :
    ShelveEditScene { s with mEditScenes := s.mEditScenes ++ [x] }
      = some { sh with mEditScenes := sh.mEditScenes ++ [x] } := by
  unfold ShelveEditScene at h ⊢
  by_cases h0 : 0 ≤ s.mEditSceneIndex
  · rw [if_pos h0] at h
    simp only
    rw [if_pos h0]
    cases hg : s.mEditScenes[s.mEditSceneIndex.toNat]? with
    | none => rw [hg] at h; exact absurd h (by simp)
    | some e =>
      rw [hg] at h
      have hlt : s.mEditSceneIndex.toNat < s.mEditScenes.length := by
        by_contra hc
        rw [List.getElem?_eq_none (by omega)] at hg
        exact absurd hg (by simp)
      rw [List.getElem?_append_left hlt, hg]
      simp only [Option.some.injEq] at h
      subst h
      simp [List.set_append_left _ _ hlt]
  · rw [if_neg h0] at h
    simp only
    rw [if_neg h0]
    simp only [Option.some.injEq] at h
    subst h
    rfl

theorem findOpenScene_none (sc : Nat) (l : List EditScene) (k : Nat) :
    findOpenScene sc l k = none ↔ ∀ e ∈ l, e.mSceneAsset ≠ some sc := by
  induction l generalizing k with
  | nil => simp [findOpenScene]
  | cons a rest ih =>
    unfold findOpenScene
    by_cases ha : a.mSceneAsset = some sc
    · simp [ha]
    · simp [ha, ih]

theorem findOpenScene_some (sc : Nat) (l : List EditScene) (k i : Nat)
    (h : findOpenScene sc l k = some i) :
    k ≤ i ∧ i - k < l.length ∧
      (∃ e, l[i - k]? = some e ∧ e.mSceneAsset = some sc) ∧
      ∀ j, j < i - k → ∀ e, l[j]? = some e → e.mSceneAsset ≠ some sc := by
  induction l generalizing k with
  | nil => simp [findOpenScene] at h
  | cons a rest ih =>
    unfold findOpenScene at h
    by_cases ha : a.mSceneAsset = some sc
    · rw [if_pos ha] at h
      simp only [Option.some.injEq] at h
      subst h
      simp [ha]
    · rw [if_neg ha] at h
      obtain ⟨h1, h2, ⟨e, he, hes⟩, h4⟩ := ih (k + 1) h
      have hik : i - k = (i - (k + 1)) + 1 := by omega
      refine ⟨by omega, by simp only [List.length_cons]; omega, ⟨e, ?_, hes⟩, ?_⟩
      · rw [hik, List.getElem?_cons_succ]; exact he
      · intro j hj e2 he2
        cases j with
        | zero =>
          simp only [List.getElem?_cons_zero, Option.some.injEq] at he2
          subst he2; exact ha
        | succ n =>
          rw [List.getElem?_cons_succ] at he2
          exact h4 n (by omega) e2 he2

/-- The push branch of `OpenEditScene(Scene*)` outside play-in-editor: the new
entry is appended behind the shelved list and becomes the active one. -/
theorem OpenEditScene_int32_pushed (s : EditorState) (x : EditScene)
    (hplay : s.mPlayInEditor = false)
    (hidx : s.mEditSceneIndex < (s.mEditScenes.length : Int)) :
    ∃ sh, ShelveEditScene s = some sh ∧ sh.mEditScenes.length = s.mEditScenes.length ∧
      OpenEditScene_int32 { s with mEditScenes := s.mEditScenes ++ [x] }
          (((s.mEditScenes ++ [x]).length : Int) - 1)
        = some { sh with
            mEditScenes := sh.mEditScenes ++ [x]
            mEditSceneIndex := (s.mEditScenes.length : Int)
            worldRoot := x.mRootNode
            editorCamera := x.mCameraTransform } := by
  obtain ⟨sh, hsh, _, _, hlen, _, _⟩ := ShelveEditScene_defined s hidx
  refine ⟨sh, hsh, hlen, ?_⟩
  have hap := ShelveEditScene_append s sh x hsh
  have hlast : (((s.mEditScenes ++ [x]).length : Int) - 1) = (s.mEditScenes.length : Int) := by
    simp
  rw [hlast]
  unfold OpenEditScene_int32
  simp only
  rw [if_neg (by simp [hplay]), hap]
  simp only
  rw [if_pos ⟨by omega, by simp [hlen]⟩]
  have hget : (sh.mEditScenes ++ [x])[(s.mEditScenes.length : Int).toNat]? = some x := by
    rw [Int.toNat_ofNat, ← hlen]
    exact List.getElem?_concat_length _ _
  rw [hget]

/-! ## What the code does around the play-in-editor lock, the lookup and the
close of an inactive scene -/

/-- While playing, `OpenEditScene(int32_t)` and `CloseEditScene` return at
their first statement. -/
theorem locked_while_playing (s : EditorState) (idx : Int) (h : s.mPlayInEditor = true) :
    OpenEditScene_int32 s idx = some s ∧ CloseEditScene s idx = some s := by
  constructor
  · unfold OpenEditScene_int32; rw [if_pos h]
  · unfold CloseEditScene; rw [if_pos h]

/-- While playing, `OpenEditScene(Scene*)` leaves the state alone only when the
scene is already open; otherwise the pushed entry stays in the list. -/
theorem OpenEditScene_Scene_while_playing (env : Engine) (s : EditorState)
    (scene : Option Nat) (h : s.mPlayInEditor = true) :
    OpenEditScene_Scene env s scene = some s ∨
    OpenEditScene_Scene env s scene
      = some { s with mEditScenes := s.mEditScenes ++ [newEditScene env scene] } := by
  unfold OpenEditScene_Scene
  simp only
  split
  · left; exact (locked_while_playing s _ h).1
  · right
    exact (locked_while_playing
      { s with mEditScenes := s.mEditScenes ++ [newEditScene env scene] } _ h).1

/-- For a valid position `idx`, `GetEditScene(idx)` is the address of the slot
at `mEditSceneIndex`, whatever `idx` is. -/
theorem GetEditScene_of_valid (s : EditorState) (idx : Int) (hv : s.validIndex idx) :
    GetEditScene s idx = EditScenePtr.slot s.mEditSceneIndex := by
  obtain ⟨h0, h1⟩ := hv
  have hne : idx ≠ -1 := by omega
  unfold GetEditScene
  simp only [if_neg hne]
  rw [if_pos ⟨h0, h1⟩]

/-- Whenever an edit scene is active outside play mode, `BeginPlayInEditor`
looks the played scene up at slot `-1` and has no defined result. -/
theorem BeginPlayInEditor_undefined_of_active (env : Engine) (s : EditorState)
    (hplay : s.mPlayInEditor = false) (hv : s.validIndex s.mEditSceneIndex) :
    (∃ s3, beginPlaySetup s = some s3 ∧ s3.mPieEditSceneIdx = s.mEditSceneIndex ∧
      GetEditScene s3 s3.mPieEditSceneIdx = EditScenePtr.slot (-1)) ∧
    BeginPlayInEditor env s = none := by
  obtain ⟨e, he, hsh⟩ := ShelveEditScene_of_valid
    { s with mSelectedNodes := [], mSelectedAssetStub := none,
             mPieEditSceneIdx := s.mEditSceneIndex } hv
  simp only at hsh
  have hsetup : beginPlaySetup s = some { s with
      mEditScenes := s.mEditScenes.set s.mEditSceneIndex.toNat
        { e with mRootNode := s.worldRoot, mCameraTransform := s.editorCamera }
      mEditSceneIndex := -1
      mPieEditSceneIdx := s.mEditSceneIndex
      mSelectedNodes := []
      mSelectedAssetStub := none
      worldRoot := none
      mUiEnabled := false
      mPlayInEditor := true } := by
    unfold beginPlaySetup
    simp only
    rw [hsh]
  have hget : GetEditScene { s with
      mEditScenes := s.mEditScenes.set s.mEditSceneIndex.toNat
        { e with mRootNode := s.worldRoot, mCameraTransform := s.editorCamera }
      mEditSceneIndex := -1
      mPieEditSceneIdx := s.mEditSceneIndex
      mSelectedNodes := []
      mSelectedAssetStub := none
      worldRoot := none
      mUiEnabled := false
      mPlayInEditor := true } s.mEditSceneIndex = EditScenePtr.slot (-1) := by
    apply GetEditScene_of_valid
    obtain ⟨h0, h1⟩ := hv
    exact ⟨h0, by simpa using h1⟩
  refine ⟨⟨_, hsetup, rfl, hget⟩, ?_⟩
  unfold BeginPlayInEditor
  rw [if_neg (by simp [hplay]), hsetup]
  simp only
  rw [hget]
  simp [EditorState.deref, EditorState.sceneAt]

/-- With no edit scene active outside play mode, `BeginPlayInEditor` followed
by `EndPlayInEditor` returns, keeps `mEditSceneIndex`, and leaves the three play
flags false. -/
theorem play_round_trip_idle (env : Engine) (s : EditorState)
    (hplay : s.mPlayInEditor = false) (hneg : s.mEditSceneIndex < 0) :
    ∃ s1 s2, BeginPlayInEditor env s = some s1 ∧ EndPlayInEditor env s1 = some s2 ∧
      s2.mEditSceneIndex = s.mEditSceneIndex ∧ s2.mEditScenes = s.mEditScenes ∧
      s2.mPlayInEditor = false ∧ s2.mEjected = false ∧ s2.mPaused = false := by
  have hsetup : beginPlaySetup s = some { s with
      mSelectedNodes := []
      mSelectedAssetStub := none
      mPieEditSceneIdx := s.mEditSceneIndex
      worldRoot := none
      mUiEnabled := false
      mPlayInEditor := true } := by
    unfold beginPlaySetup
    simp only
    rw [ShelveEditScene_of_neg _ (by simpa using hneg)]
  have hbegin : BeginPlayInEditor env s = some { s with
      mSelectedNodes := []
      mSelectedAssetStub := none
      mPieEditSceneIdx := s.mEditSceneIndex
      worldRoot := none
      mUiEnabled := false
      mPlayInEditor := true } := by
    unfold BeginPlayInEditor
    rw [if_neg (by simp [hplay]), hsetup]
    simp only
    have hnull : GetEditScene { s with
        mSelectedNodes := []
        mSelectedAssetStub := none
        mPieEditSceneIdx := s.mEditSceneIndex
        worldRoot := none
        mUiEnabled := false
        mPlayInEditor := true } s.mEditSceneIndex = EditScenePtr.null := by
      unfold GetEditScene
      simp only [ite_self]
      rw [if_neg (by omega)]
    rw [hnull]
  refine ⟨_, { s with
      mSelectedNodes := []
      mSelectedAssetStub := none
      mPieEditSceneIdx := s.mEditSceneIndex
      worldRoot := none
      mUiEnabled := true
      mPlayInEditor := false
      mEjected := false
      mPaused := false
      editorCamera := env.pieExitCamera s.editorCamera }, hbegin, ?_, rfl, rfl, rfl, rfl, rfl⟩
  unfold EndPlayInEditor
  simp only [Bool.not_true, Bool.false_eq_true, if_false]
  unfold OpenEditScene_int32
  simp only [Bool.false_eq_true, if_false]
  rw [ShelveEditScene_of_neg _ (by simpa using hneg)]
  simp only
  rw [if_neg (by omega)]

/-- Closing a valid position other than the valid active one, outside play
mode, removes that entry and changes nothing else; in particular
`mEditSceneIndex` keeps its value. -/
theorem CloseEditScene_inactive (s : EditorState) (idx : Int)
    (hplay : s.mPlayInEditor = false) (hv : s.validIndex idx)
    (ha : s.validIndex s.mEditSceneIndex) (hne : idx ≠ s.mEditSceneIndex) :
    CloseEditScene s idx
      = some { s with mEditScenes := s.mEditScenes.eraseIdx idx.toNat } := by
  obtain ⟨h0, h1⟩ := hv
  obtain ⟨a0, a1⟩ := ha
  unfold CloseEditScene
  rw [if_neg (by simp [hplay]), if_pos ⟨h0, h1⟩, if_neg hne]
  simp only
  rw [if_neg (by omega)]

/-- Closing a position behind the active one keeps the active entry where it
is. -/
theorem CloseEditScene_behind_active (s : EditorState) (idx : Int)
    (hplay : s.mPlayInEditor = false) (hv : s.validIndex idx)
    (ha : s.validIndex s.mEditSceneIndex) (hgt : s.mEditSceneIndex < idx) :
    ∃ s2, CloseEditScene s idx = some s2 ∧ s2.mEditSceneIndex = s.mEditSceneIndex ∧
      s2.sceneAt s2.mEditSceneIndex = s.sceneAt s.mEditSceneIndex ∧
      s2.worldRoot = s.worldRoot := by
  refine ⟨_, CloseEditScene_inactive s idx hplay hv ha (by omega), rfl, ?_, rfl⟩
  obtain ⟨a0, a1⟩ := ha
  simp only [EditorState.sceneAt, if_pos a0]
  exact List.getElem?_eraseIdx_of_lt _ _ _ (by omega)

/-- Closing a position in front of the active one leaves `mEditSceneIndex`
unchanged, so the index now designates the entry that used to follow the active
one (or no entry at all when the active one was last). -/
theorem CloseEditScene_before_active (s : EditorState) (idx : Int)
    (hplay : s.mPlayInEditor = false) (hv : s.validIndex idx)
    (ha : s.validIndex s.mEditSceneIndex) (hlt : idx < s.mEditSceneIndex) :
    ∃ s2, CloseEditScene s idx = some s2 ∧ s2.mEditSceneIndex = s.mEditSceneIndex ∧
      s2.sceneAt s2.mEditSceneIndex = s.sceneAt (s.mEditSceneIndex + 1) ∧
      s2.sceneAt (s.mEditSceneIndex - 1) = s.sceneAt s.mEditSceneIndex := by
  refine ⟨_, CloseEditScene_inactive s idx hplay hv ha (by omega), rfl, ?_, ?_⟩
  · obtain ⟨a0, a1⟩ := ha
    have a2 : 0 ≤ s.mEditSceneIndex + 1 := by omega
    simp only [EditorState.sceneAt, if_pos a0, if_pos a2]
    rw [List.getElem?_eraseIdx_of_ge _ _ _ (by omega)]
    congr 1
    omega
  · obtain ⟨a0, a1⟩ := ha
    obtain ⟨h0, h1⟩ := hv
    have a2 : 0 ≤ s.mEditSceneIndex - 1 := by omega
    simp only [EditorState.sceneAt, if_pos a0, if_pos a2]
    rw [List.getElem?_eraseIdx_of_ge _ _ _ (by omega)]
    congr 1
    omega

/-- Result of closing the active edit scene outside play-in-editor. -/
theorem CloseEditScene_of_active (s : EditorState) (idx : Int)
    (hplay : s.mPlayInEditor = false) (hv : s.validIndex idx)
    (hact : idx = s.mEditSceneIndex) :
    ∃ s2, CloseEditScene s idx = some s2 ∧
      s2.mEditScenes = s.mEditScenes.eraseIdx idx.toNat ∧
      s2.mEditScenes.length + 1 = s.mEditScenes.length ∧
      (s2.mEditScenes ≠ [] →
        s2.mEditSceneIndex = min idx ((s2.mEditScenes.length : Int) - 1) ∧
        ∃ e, s2.sceneAt s2.mEditSceneIndex = some e ∧ s2.worldRoot = e.mRootNode) ∧
      (s2.mEditScenes = [] → s2.mEditSceneIndex = -1) := by
  subst hact
  obtain ⟨h0, h1⟩ := hv
  have hlt : s.mEditSceneIndex.toNat < s.mEditScenes.length := by omega
  obtain ⟨e, he, hsh⟩ := ShelveEditScene_of_valid s ⟨h0, h1⟩
  have hlen : (s.mEditScenes.eraseIdx s.mEditSceneIndex.toNat).length + 1
      = s.mEditScenes.length := by
    rw [List.length_eraseIdx_of_lt hlt]; omega
  by_cases hemp : s.mEditScenes.eraseIdx s.mEditSceneIndex.toNat = []
  · refine ⟨{ s with mEditScenes := [], worldRoot := none, mEditSceneIndex := -1 }, ?_,
      by simp [hemp], by simpa [hemp] using hlen, by simp, by simp⟩
    unfold CloseEditScene
    simp [hplay, h0, h1, hsh, eraseIdx_set_self, hemp]
  · have hpos : 0 < (s.mEditScenes.eraseIdx s.mEditSceneIndex.toNat).length :=
      List.length_pos.mpr hemp
    let s1 : EditorState := { s with
      mEditScenes := s.mEditScenes.eraseIdx s.mEditSceneIndex.toNat
      worldRoot := none
      mEditSceneIndex := -1 }
    let idx2 : Int :=
      if s.mEditSceneIndex ≥ ((s.mEditScenes.eraseIdx s.mEditSceneIndex.toNat).length : Int)
      then ((s.mEditScenes.eraseIdx s.mEditSceneIndex.toNat).length : Int) - 1
      else s.mEditSceneIndex
    have hidx2 : idx2 = min s.mEditSceneIndex
        (((s.mEditScenes.eraseIdx s.mEditSceneIndex.toNat).length : Int) - 1) := by
      simp only [idx2]
      split <;> omega
    have hv1 : s1.validIndex idx2 := by
      simp only [EditorState.validIndex, s1, idx2]
      split <;> omega
    obtain ⟨e2, he2, hopen⟩ := OpenEditScene_int32_of_idle s1 idx2 hplay (by simp [s1]) hv1
    refine ⟨{ s1 with
      mEditSceneIndex := idx2
      worldRoot := e2.mRootNode
      editorCamera := e2.mCameraTransform }, ?_, ?_, ?_, ?_, ?_⟩
    · unfold CloseEditScene
      rw [if_neg (by simp [hplay]), if_pos ⟨h0, h1⟩, if_pos rfl, hsh]
      simp only [eraseIdx_set_self]
      rw [if_pos ⟨trivial, hpos⟩]
      exact hopen
    · rfl
    · exact hlen
    · intro _
      refine ⟨hidx2, e2, ?_, rfl⟩
      have : 0 ≤ idx2 := hv1.1
      simp only [EditorState.sceneAt, this, if_true]
      exact he2
    · intro h
      exact absurd h hemp


/-! ## Opening by scene when the active index is inside the list -/

/-- Outside play-in-editor, and with an active index that does not point past
the list, `OpenEditScene(scene)` returns. If an entry already has
`mSceneAsset == scene` (scene non-null), no entry is added, the scene assets of
the entries are unchanged, and the first such entry becomes the active one. If
`scene` is null, or no entry has it, exactly one entry is appended behind the
shelved list and becomes the active one: its asset is `scene`, its root is the
instantiated scene (the default root for a null scene) and its camera transform
is the identity. -/
theorem OpenEditScene_Scene_of_index_in_list (env : Engine) (s : EditorState)
    (scene : Option Nat) (hplay : s.mPlayInEditor = false)
    (hidx : s.mEditSceneIndex < (s.mEditScenes.length : Int)) :
    ∃ s2, OpenEditScene_Scene env s scene = some s2 ∧ s2.mPlayInEditor = false ∧
      (∀ sc, scene = some sc → (∃ e ∈ s.mEditScenes, e.mSceneAsset = some sc) →
        s2.mEditScenes.length = s.mEditScenes.length ∧
        s2.mEditScenes.map (fun e => e.mSceneAsset)
          = s.mEditScenes.map (fun e => e.mSceneAsset) ∧
        ∃ i : Nat, s2.mEditSceneIndex = (i : Int) ∧ i < s.mEditScenes.length ∧
          (∃ e, s.mEditScenes[i]? = some e ∧ e.mSceneAsset = some sc) ∧
          (∀ j, j < i → ∀ e, s.mEditScenes[j]? = some e → e.mSceneAsset ≠ some sc) ∧
          ∃ e2, s2.sceneAt s2.mEditSceneIndex = some e2 ∧ e2.mSceneAsset = some sc ∧
            s2.worldRoot = e2.mRootNode) ∧
      ((scene = none ∨ ∀ e ∈ s.mEditScenes, e.mSceneAsset ≠ scene) →
        ∃ sh, ShelveEditScene s = some sh ∧
          s2.mEditScenes = sh.mEditScenes ++
            [{ mSceneAsset := scene
               mRootNode := match scene with
                 | none => env.defaultRootNode
                 | some sc => env.instantiate sc
               mCameraTransform := Mat4.identity }] ∧
          s2.mEditScenes.length = s.mEditScenes.length + 1 ∧
          s2.mEditSceneIndex = (s.mEditScenes.length : Int) ∧
          s2.worldRoot = (match scene with
            | none => env.defaultRootNode
            | some sc => env.instantiate sc)) := by
  obtain ⟨sh, hsh, _, _, hshlen, hshplay, hassets⟩ := ShelveEditScene_defined s hidx
  obtain ⟨sh1, hsh1, _, hpush⟩ :=
    OpenEditScene_int32_pushed s (newEditScene env scene) hplay hidx
  rw [hsh] at hsh1
  simp only [Option.some.injEq] at hsh1
  subst hsh1
  cases scene with
  | none =>
    refine ⟨_, hpush, by simp only; rw [hshplay, hplay], ?_, ?_⟩
    · intro sc hsc; exact absurd hsc (by simp)
    · intro _
      exact ⟨sh, hsh, rfl, by simp [hshlen], rfl, rfl⟩
  | some sc =>
    cases hf : findOpenScene sc s.mEditScenes 0 with
    | none =>
      have hnone := (findOpenScene_none sc s.mEditScenes 0).mp hf
      have hres := hpush
      rw [show OpenEditScene_int32 _ _ = OpenEditScene_Scene env s (some sc) by
        unfold OpenEditScene_Scene; simp only [hf]] at hres
      refine ⟨_, hres, by simp only; rw [hshplay, hplay], ?_, ?_⟩
      · intro sc2 hsc ⟨e, hmem, he⟩
        simp only [Option.some.injEq] at hsc
        subst hsc
        exact absurd he (hnone e hmem)
      · intro _
        exact ⟨sh, hsh, rfl, by simp [hshlen], rfl, rfl⟩
    | some i =>
      obtain ⟨_, hilt, ⟨e, he, hes⟩, hfirst⟩ := findOpenScene_some sc s.mEditScenes 0 i hf
      simp only [Nat.sub_zero] at hilt he hfirst
      have hv : s.validIndex (i : Int) := ⟨by omega, by omega⟩
      obtain ⟨sh2, e2, hsh2, he2, hopen⟩ := OpenEditScene_int32_of_valid s i hplay hidx hv
      rw [hsh] at hsh2
      simp only [Option.some.injEq] at hsh2
      subst hsh2
      have hasset2 : e2.mSceneAsset = some sc := by
        have h1 := congrArg (fun l => l[i]?) hassets
        simp only [Int.toNat_ofNat] at he2
        simp only [List.getElem?_map] at h1
        rw [he2, he] at h1
        simpa [hes] using h1
      have hres := hopen
      rw [show OpenEditScene_int32 s (i : Int) = OpenEditScene_Scene env s (some sc) by
        unfold OpenEditScene_Scene; simp only [hf]] at hres
      refine ⟨_, hres, by simp only; rw [hshplay, hplay], ?_, ?_⟩
      · intro sc2 hsc _
        simp only [Option.some.injEq] at hsc
        subst hsc
        refine ⟨hshlen, hassets, i, rfl, hilt, ⟨e, he, hes⟩, hfirst, e2, ?_, hasset2, rfl⟩
        simp only [EditorState.sceneAt]
        rw [if_pos (by omega)]
        exact he2
      · intro hcase
        rcases hcase with hcase | hcase
        · exact absurd hcase (by simp)
        · exact absurd hes (hcase e (List.getElem?_mem he))

/-- Outside play-in-editor, and with an active index that does not point past
the list, opening the same non-null scene a second time adds no entry. -/
theorem OpenEditScene_Scene_twice (env : Engine) (s : EditorState) (sc : Nat)
    (hplay : s.mPlayInEditor = false)
    (hidx : s.mEditSceneIndex < (s.mEditScenes.length : Int)) :
    ∃ s2 s3, OpenEditScene_Scene env s (some sc) = some s2 ∧
      OpenEditScene_Scene env s2 (some sc) = some s3 ∧
      s3.mEditScenes.length = s2.mEditScenes.length ∧
      ∃ e3, s3.sceneAt s3.mEditSceneIndex = some e3 ∧ e3.mSceneAsset = some sc := by
  obtain ⟨s2, hs2, hplay2, hfound, hpushed⟩ :=
    OpenEditScene_Scene_of_index_in_list env s (some sc) hplay hidx
  have hstate : s2.mEditSceneIndex < (s2.mEditScenes.length : Int) ∧
      ∃ e ∈ s2.mEditScenes, e.mSceneAsset = some sc := by
    by_cases hex : ∃ e ∈ s.mEditScenes, e.mSceneAsset = some sc
    · obtain ⟨hlen, _, i, hi, hilt, _, _, e2, he2, hasset, _⟩ := hfound sc rfl hex
      refine ⟨by rw [hi, hlen]; omega, e2, ?_, hasset⟩
      simp only [EditorState.sceneAt] at he2
      split at he2
      · exact List.getElem?_mem he2
      · exact absurd he2 (by simp)
    · have hno : ∀ e ∈ s.mEditScenes, e.mSceneAsset ≠ some sc := by
        intro e hmem hc
        exact hex ⟨e, hmem, hc⟩
      obtain ⟨sh, _, hlist, hlen, hi, _⟩ := hpushed (Or.inr hno)
      refine ⟨by rw [hi, hlen]; push_cast; omega, ?_⟩
      rw [hlist]
      exact ⟨_, List.mem_append_right _ (List.mem_singleton.mpr rfl), rfl⟩
  obtain ⟨s3, hs3, _, hfound3, _⟩ :=
    OpenEditScene_Scene_of_index_in_list env s2 (some sc) hplay2 hstate.1
  obtain ⟨hlen3, _, _, _, _, _, _, e3, he3, hasset3, _⟩ := hfound3 sc rfl hstate.2
  exact ⟨s2, s3, hs2, hs3, hlen3, e3, he3, hasset3⟩

/-! ## The index predicate -/

theorem IndexInv_lt (s : EditorState) (h : IndexInv s) :
    s.mEditSceneIndex < (s.mEditScenes.length : Int) := by
  rcases h with h | h
  · omega
  · exact h.2

/-- Shelving keeps the index predicate. -/
theorem ShelveEditScene_IndexInv (s : EditorState) (h : IndexInv s) :
    ∃ s2, ShelveEditScene s = some s2 ∧ IndexInv s2 := by
  rcases h with h | h
  · exact ⟨s, ShelveEditScene_of_neg s (by omega), Or.inl h⟩
  · obtain ⟨e, _, hs⟩ := ShelveEditScene_of_valid s h
    exact ⟨_, hs, Or.inl rfl⟩

/-- Opening by position keeps the index predicate. -/
theorem OpenEditScene_int32_IndexInv (s : EditorState) (idx : Int) (h : IndexInv s) :
    ∃ s2, OpenEditScene_int32 s idx = some s2 ∧ IndexInv s2 := by
  by_cases hplay : s.mPlayInEditor = true
  · exact ⟨s, (locked_while_playing s idx hplay).1, h⟩
  · have hplay2 : s.mPlayInEditor = false := by simpa using hplay
    by_cases hv : s.validIndex idx
    · obtain ⟨sh, e, hsh, _, hopen⟩ :=
        OpenEditScene_int32_of_valid s idx hplay2 (IndexInv_lt s h) hv
      obtain ⟨sh2, hsh2, _, _, hlen, _, _⟩ := ShelveEditScene_defined s (IndexInv_lt s h)
      rw [hsh] at hsh2
      simp only [Option.some.injEq] at hsh2
      subst hsh2
      refine ⟨_, hopen, Or.inr ⟨hv.1, ?_⟩⟩
      simp only [hlen]
      exact hv.2
    · obtain ⟨sh, hsh, hinv⟩ := ShelveEditScene_IndexInv s h
      obtain ⟨sh2, hsh2, _, _, hlen, _, _⟩ := ShelveEditScene_defined s (IndexInv_lt s h)
      rw [hsh] at hsh2
      simp only [Option.some.injEq] at hsh2
      subst hsh2
      refine ⟨sh, ?_, hinv⟩
      unfold OpenEditScene_int32
      rw [if_neg hplay, hsh]
      simp only
      rw [if_neg]
      rw [hlen]
      exact hv

/-- Opening by scene keeps the index predicate. -/
theorem OpenEditScene_Scene_IndexInv (env : Engine) (s : EditorState) (scene : Option Nat)
    (h : IndexInv s) :
    ∃ s2, OpenEditScene_Scene env s scene = some s2 ∧ IndexInv s2 := by
  have hgrow : IndexInv { s with mEditScenes := s.mEditScenes ++ [newEditScene env scene] } := by
    rcases h with h | h
    · exact Or.inl h
    · refine Or.inr ⟨h.1, ?_⟩
      have := h.2
      simp only [List.length_append, List.length_singleton, Nat.cast_add, Nat.cast_one]
      omega
  unfold OpenEditScene_Scene
  simp only
  split
  · exact OpenEditScene_int32_IndexInv s _ h
  · exact OpenEditScene_int32_IndexInv _ _ hgrow

/-- Closing keeps the index predicate when the closed position is not
in front of the active one. -/
theorem CloseEditScene_IndexInv_of_le (s : EditorState) (idx : Int) (h : IndexInv s)
    (hle : s.mEditSceneIndex ≤ idx) :
    ∃ s2, CloseEditScene s idx = some s2 ∧ IndexInv s2 := by
  by_cases hplay : s.mPlayInEditor = true
  · exact ⟨s, (locked_while_playing s idx hplay).2, h⟩
  have hplay2 : s.mPlayInEditor = false := by simpa using hplay
  by_cases hv : s.validIndex idx
  · by_cases hact : idx = s.mEditSceneIndex
    · obtain ⟨s2, hs2, _, _, hne, hemp⟩ := CloseEditScene_of_active s idx hplay2 hv hact
      refine ⟨s2, hs2, ?_⟩
      by_cases hl : s2.mEditScenes = []
      · exact Or.inl (hemp hl)
      · obtain ⟨hmin, _⟩ := hne hl
        have hpos : 0 < s2.mEditScenes.length := List.length_pos.mpr hl
        have h0 := hv.1
        refine Or.inr ⟨?_, ?_⟩
        · rw [hmin]; exact le_min h0 (by omega)
        · rw [hmin]
          have := min_le_right idx ((s2.mEditScenes.length : Int) - 1)
          omega
    · rcases h with h | h
      · obtain ⟨h0, h1⟩ := hv
        have hlt : idx.toNat < s.mEditScenes.length := by omega
        have hlen : (s.mEditScenes.eraseIdx idx.toNat).length + 1 = s.mEditScenes.length := by
          rw [List.length_eraseIdx_of_lt hlt]; omega
        by_cases hpos : 0 < (s.mEditScenes.eraseIdx idx.toNat).length
        · have hv1 : ({ s with mEditScenes := s.mEditScenes.eraseIdx idx.toNat } :
              EditorState).validIndex
              (if idx ≥ ((s.mEditScenes.eraseIdx idx.toNat).length : Int)
                then ((s.mEditScenes.eraseIdx idx.toNat).length : Int) - 1 else idx) := by
            simp only [EditorState.validIndex]
            split <;> omega
          obtain ⟨e2, _, hopen⟩ := OpenEditScene_int32_of_idle
            { s with mEditScenes := s.mEditScenes.eraseIdx idx.toNat } _ hplay2
            (by simp only; omega) hv1
          have hres : CloseEditScene s idx = OpenEditScene_int32
              { s with mEditScenes := s.mEditScenes.eraseIdx idx.toNat }
              (if idx ≥ ((s.mEditScenes.eraseIdx idx.toNat).length : Int)
                then ((s.mEditScenes.eraseIdx idx.toNat).length : Int) - 1 else idx) := by
            unfold CloseEditScene
            rw [if_neg hplay, if_pos ⟨h0, h1⟩, if_neg hact]
            simp only
            rw [if_pos ⟨h, hpos⟩]
          rw [hopen] at hres
          exact ⟨_, hres, Or.inr hv1⟩
        · refine ⟨{ s with mEditScenes := s.mEditScenes.eraseIdx idx.toNat }, ?_, Or.inl h⟩
          unfold CloseEditScene
          rw [if_neg hplay, if_pos ⟨h0, h1⟩, if_neg hact]
          simp only
          rw [if_neg (fun hc => hpos hc.2)]
      · refine ⟨_, CloseEditScene_inactive s idx hplay2 hv h hact, Or.inr ⟨h.1, ?_⟩⟩
        obtain ⟨h0, h1⟩ := hv
        have hlt : idx.toNat < s.mEditScenes.length := by omega
        simp only [List.length_eraseIdx_of_lt hlt]
        have : s.mEditSceneIndex < idx := lt_of_le_of_ne hle (fun hc => hact hc.symm)
        omega
  · refine ⟨s, ?_, h⟩
    unfold CloseEditScene
    rw [if_neg hplay, if_neg (show ¬ (0 ≤ idx ∧ idx < (s.mEditScenes.length : Int)) from hv)]

/-! ## Claims -/

/-- C2. `GetEditScene(-1)` means the current edit scene: when
`mEditSceneIndex` is a valid index the returned pointer is the address of the
entry of `mEditScenes` at `mEditSceneIndex` (and reading through it yields that
entry), and when no edit scene is active (`mEditSceneIndex = -1`) the result is
null. -/
theorem GetEditScene_current (s : EditorState) :
    (s.validIndex s.mEditSceneIndex →
      GetEditScene s (-1) = EditScenePtr.slot s.mEditSceneIndex ∧
      ∃ e, s.mEditScenes[s.mEditSceneIndex.toNat]? = some e ∧
        s.deref (GetEditScene s (-1)) = some e) ∧
    (s.mEditSceneIndex = -1 → GetEditScene s (-1) = EditScenePtr.null) := by
  constructor
  · intro h
    have hp : GetEditScene s (-1) = EditScenePtr.slot s.mEditSceneIndex := by
      unfold EditorState.validIndex at h
      simp [GetEditScene, h]
    refine ⟨hp, ?_⟩
    obtain ⟨h0, h1⟩ := h
    have hlt : s.mEditSceneIndex.toNat < s.mEditScenes.length := by omega
    refine ⟨s.mEditScenes[s.mEditSceneIndex.toNat], List.getElem?_eq_getElem hlt, ?_⟩
    rw [hp]
    simp [EditorState.deref, EditorState.sceneAt, h0, List.getElem?_eq_getElem hlt]
  · intro h
    simp [GetEditScene, h]

/-- Witness for C2: two scenes are open and the second one is active. -/
theorem GetEditScene_current_witness :
    GetEditScene (sampleState [sampleScene 1, sampleScene 2] 1 false) (-1)
        = EditScenePtr.slot 1 ∧
      ∃ e, (sampleState [sampleScene 1, sampleScene 2] 1 false).mEditScenes[(1 : Int).toNat]?
          = some e ∧
        (sampleState [sampleScene 1, sampleScene 2] 1 false).deref
          (GetEditScene (sampleState [sampleScene 1, sampleScene 2] 1 false) (-1)) = some e :=
  (GetEditScene_current (sampleState [sampleScene 1, sampleScene 2] 1 false)).1 (by decide)

/-- C7. Closing the active edit scene loads the next one in its place: outside
play-in-editor, for a valid `idx` equal to `mEditSceneIndex`, `CloseEditScene`
returns; the list is the old one with entry `idx` removed (one entry fewer);
when it is still non-empty the active index is `min idx (newSize - 1)` and the
world root is the shelved root of that entry; when it is empty the active index
is `-1`. -/
theorem CloseEditScene_active (s : EditorState) (idx : Int)
    (hplay : s.mPlayInEditor = false) (hv : s.validIndex idx)
    (hact : idx = s.mEditSceneIndex) :
    ∃ s2, CloseEditScene s idx = some s2 ∧
      s2.mEditScenes = s.mEditScenes.eraseIdx idx.toNat ∧
      s2.mEditScenes.length + 1 = s.mEditScenes.length ∧
      (s2.mEditScenes ≠ [] →
        s2.mEditSceneIndex = min idx ((s2.mEditScenes.length : Int) - 1) ∧
        ∃ e, s2.sceneAt s2.mEditSceneIndex = some e ∧ s2.worldRoot = e.mRootNode) ∧
      (s2.mEditScenes = [] → s2.mEditSceneIndex = -1) :=
  CloseEditScene_of_active s idx hplay hv hact

/-- Witness for C7: three scenes are open and the last one, which is active,
is closed. -/
theorem CloseEditScene_active_witness :
    ∃ s2, CloseEditScene (sampleState [sampleScene 1, sampleScene 2, sampleScene 3] 2 false) 2
        = some s2 ∧
      s2.mEditScenes = (sampleState [sampleScene 1, sampleScene 2, sampleScene 3] 2
        false).mEditScenes.eraseIdx (2 : Int).toNat ∧
      s2.mEditScenes.length + 1 = (sampleState [sampleScene 1, sampleScene 2, sampleScene 3] 2
        false).mEditScenes.length ∧
      (s2.mEditScenes ≠ [] →
        s2.mEditSceneIndex = min 2 ((s2.mEditScenes.length : Int) - 1) ∧
        ∃ e, s2.sceneAt s2.mEditSceneIndex = some e ∧ s2.worldRoot = e.mRootNode) ∧
      (s2.mEditScenes = [] → s2.mEditSceneIndex = -1) :=
  CloseEditScene_active (sampleState [sampleScene 1, sampleScene 2, sampleScene 3] 2 false) 2
    (by decide) (by decide) (by decide)

/-- C6, evaluated on the code. Starting with no edit scene open, outside
play-in-editor, opening scene 1, opening scene 2 and closing position 0 leaves
one entry (scene 2) with `mEditSceneIndex = 1`. In that state
`OpenEditScene(scene 2)` finds the scene at position 0, but the shelving that
follows indexes `mEditScenes[1]` past the end of the list, so the call has no
defined result and the entry does not become the active one. Opening scene 5,
which is not open, appends one entry, but the shelving then overwrites the root
the new entry got from `Instantiate` (node 105) with the root of scene 2 (node
102). -/
theorem OpenEditScene_Scene_undefined_after_stale_index :
    ((OpenEditScene_Scene sampleEngine idleNoScenes (some 1)).bind
        (fun s => OpenEditScene_Scene sampleEngine s (some 2))).bind
        (fun s => CloseEditScene s 0) = some staleIndexState ∧
    staleIndexState.mPlayInEditor = false ∧
    staleIndexState.mEditScenes = [⟨some 2, some 102, Mat4.identity⟩] ∧
    staleIndexState.mEditSceneIndex = 1 ∧
    findOpenScene 2 staleIndexState.mEditScenes 0 = some 0 ∧
    ShelveEditScene staleIndexState = none ∧
    OpenEditScene_Scene sampleEngine staleIndexState (some 2) = none ∧
    OpenEditScene_Scene sampleEngine staleIndexState (some 5) = some { staleIndexState with
      mEditScenes := [⟨some 2, some 102, Mat4.identity⟩, ⟨some 5, some 102, Mat4.identity⟩]
      mEditSceneIndex := 1
      worldRoot := some 102 } := by
  decide

/-- C1, evaluated on the code. While playing, with no edit scene open,
`OpenEditScene(int32_t)` and `CloseEditScene` leave the state as it is, but
`OpenEditScene(nullptr)` pushes a new entry onto `mEditScenes` before it
reaches the lock: the list grows from zero entries to one (the active index
stays `-1`). -/
theorem OpenEditScene_Scene_pushes_while_playing :
    playingNoScenes.mPlayInEditor = true ∧
    OpenEditScene_int32 playingNoScenes 0 = some playingNoScenes ∧
    CloseEditScene playingNoScenes 0 = some playingNoScenes ∧
    OpenEditScene_Scene sampleEngine playingNoScenes none
      = some { playingNoScenes with mEditScenes := [⟨none, none, Mat4.identity⟩] } ∧
    OpenEditScene_Scene sampleEngine playingNoScenes (some 5)
      = some { playingNoScenes with mEditScenes := [⟨some 5, some 105, Mat4.identity⟩] } := by
  decide

/-- C3, evaluated on the code. With scenes 1 and 2 open and scene 1 active,
`GetEditScene(1)` returns the address of slot 0 (scene 1) although slot 1 holds
scene 2; with scene 1 open and no scene active, `GetEditScene(0)` returns the
address of slot `-1`, which lies outside the list. -/
theorem GetEditScene_returns_active_slot :
    twoScenesFirstActive.validIndex 1 ∧
    GetEditScene twoScenesFirstActive 1 = EditScenePtr.slot 0 ∧
    twoScenesFirstActive.deref (GetEditScene twoScenesFirstActive 1) = some (sampleScene 1) ∧
    twoScenesFirstActive.sceneAt 1 = some (sampleScene 2) ∧
    playingOneShelved.validIndex 0 ∧
    GetEditScene playingOneShelved 0 = EditScenePtr.slot (-1) ∧
    playingOneShelved.deref (GetEditScene playingOneShelved 0) = none := by
  decide

/-- C4, evaluated on the code. With scene 1 open and active (root node 101),
`BeginPlayInEditor` saves index 0 and shelves the scene, so entry 0 holds root
101 and `mEditSceneIndex` is `-1`; the lookup `GetEditScene(mPieEditSceneIdx)`
then returns the address of slot `-1` instead of slot 0, reading through it is
outside the list, and the call has no defined result. -/
theorem BeginPlayInEditor_looks_up_slot_outside_list :
    oneSceneActive.mPlayInEditor = false ∧
    oneSceneActive.worldRoot = some 101 ∧
    beginPlaySetup oneSceneActive = some { oneSceneActive with
      mEditScenes := [{ sampleScene 1 with mRootNode := some 101, mCameraTransform := ⟨7⟩ }]
      mEditSceneIndex := -1
      mPieEditSceneIdx := 0
      mPlayInEditor := true
      mUiEnabled := false
      worldRoot := none } ∧
    (∀ s3, beginPlaySetup oneSceneActive = some s3 →
      GetEditScene s3 s3.mPieEditSceneIdx = EditScenePtr.slot (-1) ∧
      s3.deref (GetEditScene s3 s3.mPieEditSceneIdx) = none) ∧
    BeginPlayInEditor sampleEngine oneSceneActive = none := by
  refine ⟨by decide, by decide, by decide, ?_, by decide⟩
  intro s3 h
  have h2 : beginPlaySetup oneSceneActive = some { oneSceneActive with
      mEditScenes := [{ sampleScene 1 with mRootNode := some 101, mCameraTransform := ⟨7⟩ }]
      mEditSceneIndex := -1
      mPieEditSceneIdx := 0
      mPlayInEditor := true
      mUiEnabled := false
      worldRoot := none } := by decide
  rw [h2] at h
  simp only [Option.some.injEq] at h
  subst h
  decide

/-- C5, evaluated on the code. With scenes 1 and 2 open and scene 2 active,
outside play mode, `BeginPlayInEditor` followed by `EndPlayInEditor` has no
defined result: `BeginPlayInEditor` reads `mEditScenes[-1]`. -/
theorem play_round_trip_undefined_with_active_scene :
    twoScenesSecondActive.mPlayInEditor = false ∧
    twoScenesSecondActive.mEditSceneIndex = 1 ∧
    (BeginPlayInEditor sampleEngine twoScenesSecondActive).bind
      (EndPlayInEditor sampleEngine) = none := by
  decide

/-- C8, evaluated on the code. With scenes 1, 2 and 3 open and scene 2 active
(index 1), closing scene 1 (index 0) leaves `mEditSceneIndex` at 1, which is
now the position of scene 3, while the world still holds the root of scene 2,
whose entry is now at index 0. -/
theorem CloseEditScene_before_active_keeps_index :
    threeScenesMiddleActive.mPlayInEditor = false ∧
    threeScenesMiddleActive.sceneAt threeScenesMiddleActive.mEditSceneIndex
      = some (sampleScene 2) ∧
    CloseEditScene threeScenesMiddleActive 0 = some { threeScenesMiddleActive with
      mEditScenes := [sampleScene 2, sampleScene 3] } ∧
    ({ threeScenesMiddleActive with
      mEditScenes := [sampleScene 2, sampleScene 3] } : EditorState).mEditSceneIndex = 1 ∧
    ({ threeScenesMiddleActive with
      mEditScenes := [sampleScene 2, sampleScene 3] } : EditorState).sceneAt 1
      = some (sampleScene 3) ∧
    ({ threeScenesMiddleActive with
      mEditScenes := [sampleScene 2, sampleScene 3] } : EditorState).sceneAt 0
      = some (sampleScene 2) := by
  decide

/-- C9, evaluated on the code. With scenes 1 and 2 open and scene 2 active
(index 1) the index predicate holds; after `CloseEditScene(0)` the list has one
entry and `mEditSceneIndex` is still 1, so the predicate no longer holds. -/
theorem CloseEditScene_breaks_IndexInv :
    twoScenesSecondActive.mPlayInEditor = false ∧
    IndexInv twoScenesSecondActive ∧
    CloseEditScene twoScenesSecondActive 0 = some { twoScenesSecondActive with
      mEditScenes := [sampleScene 2] } ∧
    ¬ IndexInv { twoScenesSecondActive with mEditScenes := [sampleScene 2] } := by
  decide

end Octave
